import Mathlib

/-!
Verification of the `khorsmann/ripping-toolchain` transcode service against its
specification.  The definitions below are a shallow embedding of
`transcode/transcode_mqtt.py` and `transcode/rescan.py`: pure functions are
translated directly, subprocess probes (`ffprobe`, `ffmpeg -vf idet`) become
oracle parameters carrying the value the probe would report, filesystem and
SQLite state become explicit state records, and Python exceptions become
`Option`/`Except` results.  Python string operations (`str.strip`, `str.lower`,
`str.split(",")`) are modelled character-by-character so that every definition
evaluates inside the kernel.
-/

namespace RippingToolchain

/-! ## Python string primitives

`py_strip`, `py_lower` and `py_split_comma` model Python's `str.strip()`,
`str.lower()` (restricted to ASCII, which is all the configuration values use)
and `str.split(",")`. -/

def strip_chars (cs : List Char) : List Char :=
  ((cs.dropWhile Char.isWhitespace).reverse.dropWhile Char.isWhitespace).reverse

/-- Python `s.strip()`. -/
def py_strip (s : String) : String := String.mk (strip_chars s.data)

/-- Python `s.lower()` for the ASCII configuration strings used here. -/
def py_lower (s : String) : String := String.mk (s.data.map Char.toLower)

def split_comma_chars : List Char → List (List Char)
  | [] => [[]]
  | c :: rest =>
    let r := split_comma_chars rest
    if c = ',' then [] :: r
    else
      match r with
      | [] => [[c]]
      | g :: gs => (c :: g) :: gs

/-- Python `s.split(",")`; in particular `"".split(",") == [""]`. -/
def py_split_comma (s : String) : List String :=
  (split_comma_chars s.data).map String.mk

/-! ## Stream records and language filtering
(`transcode_mqtt.py` lines 199-341.)

A probed stream is the dict `{"index": …, "channels": …, "language": …}` built
by `probe_audio_streams` / `probe_subtitle_streams`; every field can be `None`
(`channels` is absent for subtitle streams and simply unused). -/

structure StreamInfo where
  index : Option Nat
  channels : Option Nat
  language : Option String
deriving DecidableEq

/-- `parse_langs(raw, default)` (lines 327-330).  The Python set comprehension
is modelled as a list used only through membership and emptiness, which agree
with the set semantics.  `value = raw if raw and raw.strip() else default`:
the configured string is used only when it is non-`None`, non-empty and not
whitespace-only; otherwise the default applies. -/
def parse_langs (raw : Option String) (default : String) : List String :=
  let value :=
    match raw with
    | some s => if s ≠ "" ∧ py_strip s ≠ "" then s else default
    | Option.none => default
  ((py_split_comma value).map (fun part => py_lower (py_strip part))).filter
    (fun part => decide (part ≠ ""))

/-- `filter_streams_by_language(streams, allowed)` (lines 333-341): with an
empty allow-set the input is returned unchanged, otherwise only streams whose
lowercased language (`(stream.get("language") or "").lower()`) is in the set
are kept. -/
def filter_streams_by_language (streams : List StreamInfo) (allowed : List String) :
    List StreamInfo :=
  if allowed = [] then streams
  else streams.filter (fun s => allowed.contains (py_lower (s.language.getD "")))

/-- The audio-selection step of `transcode_dir` (lines 729-737): apply the
language filter, but if that would drop every probed audio stream keep all of
them. -/
def selected_audio_with_fallback (audio_streams : List StreamInfo)
    (audio_langs : List String) : List StreamInfo :=
  let selected := filter_streams_by_language audio_streams audio_langs
  if audio_streams ≠ [] ∧ selected = [] then audio_streams else selected

/-! ## Interlace detection (`transcode_mqtt.py` lines 105-196, 719-724)

`run_idet` and the `field_order` ffprobe call are subprocess probes; they are
modelled as oracle inputs: `field_order` is the stripped, lowercased value the
probe reported (`""` when the probe failed or printed nothing, exactly what
`detect_interlaced` computes into its local `field_order`), and `idet_counts`
is `parse_idet_counts` applied to the ffmpeg output (`None` when ffmpeg failed
or printed no idet lines). -/

structure IdetCounts where
  tff : Nat
  bff : Nat
  progressive : Nat
  undetermined : Nat
deriving DecidableEq

/-- `decide_idet(counts)` (lines 105-114): majority of TFF+BFF vs progressive
frames; all-zero and ties are undetermined (`None`). -/
def decide_idet (c : IdetCounts) : Option Bool :=
  let interlaced := c.tff + c.bff
  if interlaced = 0 ∧ c.progressive = 0 then Option.none
  else if interlaced > c.progressive then some true
  else if c.progressive > interlaced then some false
  else Option.none

def interlaced_meta : List String := ["tt", "bb", "tb", "bt"]

/-- `detect_interlaced(path)` (lines 122-196) with the two probes replaced by
their reported values.  Note the order of the branches: the idet decision is
consulted *before* the `field_order == "progressive"` branch. -/
def detect_interlaced (field_order : String) (idet_counts : Option IdetCounts) :
    Option Bool :=
  if field_order ∈ interlaced_meta then some true
  else
    let idet_decision := idet_counts.bind decide_idet
    if idet_decision = some true then some true
    else if idet_decision = some false then some false
    else if field_order = "progressive" then some false
    else if field_order = "unknown" ∨ field_order = "" then some true
    else if field_order ≠ "" then some false
    else Option.none

/-- Lines 719-724 of `transcode_dir`: an explicit boolean `interlaced` field of
the job envelope short-circuits detection entirely. -/
def interlaced_effective (hint : Option Bool) (field_order : String)
    (idet_counts : Option IdetCounts) : Option Bool :=
  match hint with
  | some b => some b
  | Option.none => detect_interlaced field_order idet_counts

/-- The interlace priority as the specification sentence would have it once
amended to match the code: explicit hint, then metadata values that denote
interlaced, then the idet frame analysis, and only for an indeterminate
analysis the remaining metadata values ("progressive" → progressive,
unknown/empty → interlaced, anything else → progressive). -/
def interlace_priority_amended (hint : Option Bool) (field_order : String)
    (idet_counts : Option IdetCounts) : Option Bool :=
  match hint with
  | some b => some b
  | Option.none =>
    if field_order ∈ interlaced_meta then some true
    else
      match idet_counts.bind decide_idet with
      | some d => some d
      | Option.none =>
        if field_order = "progressive" then some false
        else if field_order = "unknown" ∨ field_order = "" then some true
        else some false

/-! ## Encoder state machine (`transcode_mqtt.py` lines 901-1018)

One ffmpeg invocation is abstracted by the oracle `ok : EncoderKind → Nat →
Bool` telling whether the attempt with the given label and attempt number
exits successfully.  A successful run leaves the output file in place; a
failed run's partial output is unlinked before the next attempt (lines
947-955), so after the inner retry loop `out.exists()` (line 973) holds
exactly when some attempt succeeded.

Every iteration begins with `cmd = cmd_builder()` (line 922), and the
software path begins with `sw_cmd = build_sw_cmd()` (line 1017).  All three
builders end in `if add_downmix: cmd.extend(build_downmix_args())` (lines
838-839, 868-869, 896-897), a call that omits the required `output_index`
argument, so building a command raises `TypeError` exactly when
`add_downmix` is set.  That `TypeError` is not a `CalledProcessError`, so
the inner `except` (line 946) does not catch it: it propagates to the outer
handler (line 1043) before any attempt was run or any `start` published.
The machine therefore takes `add_downmix` and returns `Except`, where the
error is the propagating `TypeError`. -/

inductive EncoderKind where
  | qsv
  | vaapi
  | software
deriving DecidableEq

def encoder_label : EncoderKind → String
  | EncoderKind.qsv => "qsv"
  | EncoderKind.vaapi => "vaapi"
  | EncoderKind.software => "software"

/-- Lines 909-918: a VC-1 source skips the QSV decode path. -/
def hw_encoders (video_codec : Option String) : List EncoderKind :=
  if video_codec = some "vc1" then [EncoderKind.vaapi]
  else [EncoderKind.qsv, EncoderKind.vaapi]

/-- The exception raised by every `cmd_builder()` / `build_sw_cmd()` call
when `add_downmix` is set (the C3 slip at lines 838-839, 868-869,
896-897). -/
def cmd_builder_type_error : String :=
  "TypeError: build_downmix_args() missing 1 required positional argument: output_index"

/-- The inner `for attempt in range(0, max_hw_retries + 1)` loop (lines
921-972) for one encoder, over the given list of attempt numbers.  Each
iteration first evaluates `cmd = cmd_builder()` (line 922), which raises
when `add_downmix` is set — before the attempt-0 `start` publish and before
any ffmpeg run; otherwise the attempt runs and the loop stops at the first
success.  Returns the attempts that were actually run and whether one of
them succeeded, or the propagating `TypeError`. -/
def run_attempts (ok : EncoderKind → Nat → Bool) (add_downmix : Bool)
    (e : EncoderKind) : List Nat → Except String (List (EncoderKind × Nat) × Bool)
  | [] => Except.ok ([], false)
  | a :: rest =>
    if add_downmix then Except.error cmd_builder_type_error
    else if ok e a then Except.ok ([(e, a)], true)
    else
      match run_attempts ok add_downmix e rest with
      | Except.error err => Except.error err
      | Except.ok r => Except.ok ((e, a) :: r.1, r.2)

/-- The outer `for encoder_label, cmd_builder in encoders` loop (lines
920-976): try each encoder's retry loop, stopping as soon as the output file
exists (`if out.exists(): break`, lines 973-975); a `TypeError` from the
builder escapes the loop. -/
def run_hw_encoders (ok : EncoderKind → Nat → Bool) (add_downmix : Bool)
    (max_hw_retries : Nat) :
    List EncoderKind → Except String (List (EncoderKind × Nat) × Bool)
  | [] => Except.ok ([], false)
  | e :: rest =>
    match run_attempts ok add_downmix e (List.range (max_hw_retries + 1)) with
    | Except.error err => Except.error err
    | Except.ok r =>
      if r.2 then Except.ok (r.1, true)
      else
        match run_hw_encoders ok add_downmix max_hw_retries rest with
        | Except.error err => Except.error err
        | Except.ok r' => Except.ok (r.1 ++ r'.1, r'.2)

/-- Lines 901-1018 for one work item: the hardware phase, then — when it
failed — either the item-level error (software fallback disabled, lines
978-994) or exactly one software attempt (lines 996-1018), whose
`build_sw_cmd()` (line 1017) raises the same `TypeError` when `add_downmix`
is set.  Returns the ffmpeg attempts run, in order, and whether the item
ended with an output — or the `TypeError` that aborts the item with zero
attempts run. -/
def transcode_attempts (ok : EncoderKind → Nat → Bool) (video_codec : Option String)
    (max_hw_retries : Nat) (enable_sw_fallback add_downmix : Bool) :
    Except String (List (EncoderKind × Nat) × Bool) :=
  match run_hw_encoders ok add_downmix max_hw_retries (hw_encoders video_codec) with
  | Except.error err => Except.error err
  | Except.ok r =>
    if r.2 then Except.ok (r.1, true)
    else if enable_sw_fallback then
      if add_downmix then Except.error cmd_builder_type_error
      else Except.ok (r.1 ++ [(EncoderKind.software, 0)], ok EncoderKind.software 0)
    else Except.ok (r.1, false)

/-- Runs a planned attempt list in order and keeps every attempt up to and
including the first successful one (all of them when none succeeds). -/
def stop_at_first_success (ok : EncoderKind → Nat → Bool) :
    List (EncoderKind × Nat) → List (EncoderKind × Nat)
  | [] => []
  | p :: rest => if ok p.1 p.2 then [p] else p :: stop_at_first_success ok rest

/-- The full attempt plan: every encoder of `es` with attempt numbers
`0 … m`. -/
def planned_attempts (es : List EncoderKind) (m : Nat) : List (EncoderKind × Nat) :=
  es.flatMap (fun e => (List.range (m + 1)).map (fun a => (e, a)))

/-! ## Lifecycle events (`transcode_mqtt.py` lines 920-1054)

A `start` event is published at `attempt == 0` of each hardware encoder that
is entered (lines 928-939) and once more before the software fallback (lines
1006-1016); `done` after a successful item (lines 1033-1041); `error` either
when the hardware phase failed with the fallback disabled (lines 984-993) or
from the `except` handler at line 1043 when an exception escaped, in which
case the exception is re-raised (line 1054) and `transcode_dir` aborts, so
the remaining work items of the job are never processed.  The builder
`TypeError` of a downmix-enabled run is such an exception: it is raised at
line 922 *before* the attempt-0 `start` publish, so the item then gets zero
`start` events and one `error`. -/

inductive Event where
  | start (encoder : String)
  | done
  | error
deriving DecidableEq

def is_start : Event → Bool
  | Event.start _ => true
  | _ => false

def is_final : Event → Bool
  | Event.done => true
  | Event.error => true
  | _ => false

inductive ItemOutcome where
  | completed
  | failed_continue
  | aborted
deriving DecidableEq

/-- The events of the hardware phase: one `start` per encoder entered.  A
builder `TypeError` (line 922) is raised before the attempt-0 `start`
publish (line 928), so it escapes without contributing any event. -/
def run_hw_events (ok : EncoderKind → Nat → Bool) (add_downmix : Bool)
    (max_hw_retries : Nat) : List EncoderKind → Except String (List Event × Bool)
  | [] => Except.ok ([], false)
  | e :: rest =>
    match run_attempts ok add_downmix e (List.range (max_hw_retries + 1)) with
    | Except.error err => Except.error err
    | Except.ok r =>
      if r.2 then Except.ok ([Event.start (encoder_label e)], true)
      else
        match run_hw_events ok add_downmix max_hw_retries rest with
        | Except.error err => Except.error err
        | Except.ok r' => Except.ok (Event.start (encoder_label e) :: r'.1, r'.2)

/-- All status-topic events for one non-skipped work item, with the item's
fate.  An escaping builder `TypeError` reaches the handler at line 1043,
which publishes one `error` and re-raises: the item aborts with zero
`start` events.  On the software path the `start` (lines 1006-1016) is
published before `build_sw_cmd()` (line 1017), so a `TypeError` there
arrives after that `start`. -/
def item_events (ok : EncoderKind → Nat → Bool) (video_codec : Option String)
    (max_hw_retries : Nat) (enable_sw_fallback add_downmix : Bool) :
    List Event × ItemOutcome :=
  match run_hw_events ok add_downmix max_hw_retries (hw_encoders video_codec) with
  | Except.error _ => ([Event.error], ItemOutcome.aborted)
  | Except.ok r =>
    if r.2 then (r.1 ++ [Event.done], ItemOutcome.completed)
    else if ¬enable_sw_fallback then (r.1 ++ [Event.error], ItemOutcome.failed_continue)
    else if add_downmix then
      (r.1 ++ [Event.start "software", Event.error], ItemOutcome.aborted)
    else if ok EncoderKind.software 0 then
      (r.1 ++ [Event.start "software", Event.done], ItemOutcome.completed)
    else (r.1 ++ [Event.start "software", Event.error], ItemOutcome.aborted)

/-- The `for mkv in mkv_files` loop of `transcode_dir` over the non-skipped
work items, each given as its probed video codec and its attempt oracle: one
event list per item, where an aborted item (an exception re-raised at line
1054, from the software run or a builder `TypeError`) leaves every later
item without events. -/
def process_job (max_hw_retries : Nat) (enable_sw_fallback add_downmix : Bool) :
    List (Option String × (EncoderKind → Nat → Bool)) → List (List Event)
  | [] => []
  | item :: rest =>
    let r := item_events item.2 item.1 max_hw_retries enable_sw_fallback add_downmix
    if r.2 = ItemOutcome.aborted then r.1 :: rest.map (fun _ => [])
    else r.1 :: process_job max_hw_retries enable_sw_fallback add_downmix rest

/-! ## Audio arguments and the downmix (`transcode_mqtt.py` lines 297-324,
739-777, 789-841) -/

/-- `build_audio_args(output_index, channels, source_type)` (lines 297-313). -/
def build_audio_args (output_index : Nat) (channels : Option Nat)
    (source_type : String) : List String :=
  let bitrate :=
    match channels with
    | Option.none => "640k"
    | some c =>
      if c ≤ 2 then "256k"
      else if source_type = "bluray" then "768k" else "640k"
  ["-c:a:" ++ toString output_index, "eac3",
   "-b:a:" ++ toString output_index, bitrate]

/-- `build_downmix_args(output_index)` (lines 316-324).  `output_index` is a
required positional parameter — the calls `build_downmix_args()` inside the
command builders (lines 838-839, 868-869, 896-897) omit it. -/
def build_downmix_args (output_index : Nat) : List String :=
  ["-c:a:" ++ toString output_index, "aac",
   "-b:a:" ++ toString output_index, "192k",
   "-ac:a:" ++ toString output_index, "2"]

/-- Lines 739-741: `AUDIO_MODE == "auto"` resolves to `encode` for Blu-ray and
`copy` for everything else. -/
def audio_mode_resolved (audio_mode source_type : String) : String :=
  if audio_mode = "auto" then (if source_type = "bluray" then "encode" else "copy")
  else audio_mode

/-- The `for stream in selected_audio` loop (lines 750-762), threading the
`maps`, `audio_args` and `output_audio_index` accumulators. -/
def audio_stream_loop (audio_mode_effective source_type : String) :
    List StreamInfo → List String × List String × Nat →
      List String × List String × Nat
  | [], acc => acc
  | s :: rest, acc =>
    match s.index with
    | Option.none => audio_stream_loop audio_mode_effective source_type rest acc
    | some i =>
      let maps := acc.1 ++ ["-map", "0:" ++ toString i]
      if audio_mode_effective = "copy" then
        audio_stream_loop audio_mode_effective source_type rest (maps, acc.2.1, acc.2.2)
      else
        audio_stream_loop audio_mode_effective source_type rest
          (maps, acc.2.1 ++ build_audio_args acc.2.2 s.channels source_type, acc.2.2 + 1)

/-- Lines 743-777 of `transcode_dir`: resolve `add_downmix`, build the stream
maps and per-stream audio arguments, apply the copy / empty-args fallbacks,
and append the downmix map and arguments for the first selected stream.
Returns `(maps, audio_args, add_downmix)`. -/
def plan_audio (selected_audio : List StreamInfo)
    (audio_mode_effective source_type : String) (enable_aac_downmix : Bool) :
    List String × List String × Bool :=
  let add_downmix := enable_aac_downmix ∧ audio_mode_effective ≠ "copy"
  let acc := audio_stream_loop audio_mode_effective source_type selected_audio
    (["-map", "0:v:0"], [], 0)
  let audio_args :=
    if audio_mode_effective = "copy" then ["-c:a", "copy"]
    else if acc.2.1 = [] ∧ selected_audio ≠ [] then ["-c:a", "eac3"]
    else acc.2.1
  match selected_audio with
  | [] => (acc.1, audio_args, decide add_downmix)
  | first :: _ =>
    if add_downmix then
      match first.index with
      | some i =>
        (acc.1 ++ ["-map", "0:" ++ toString i],
         audio_args ++ build_downmix_args acc.2.2, decide add_downmix)
      | Option.none => (acc.1, audio_args, decide add_downmix)
    else (acc.1, audio_args, decide add_downmix)

/-- Subtitle maps (lines 779-783). -/
def subtitle_maps (selected_subs : List StreamInfo) : List String :=
  selected_subs.flatMap (fun s =>
    match s.index with
    | some i => ["-map", "0:" ++ toString i]
    | Option.none => [])

/-- `build_qsv_filter(interlaced, qsv_direct)` (lines 365-369). -/
def build_qsv_filter (interlaced : Option Bool) (qsv_direct : Bool) : String :=
  let deint := if interlaced = some true then "1" else "0"
  if qsv_direct then "vpp_qsv=deinterlace=" ++ deint
  else "format=nv12,hwupload=extra_hw_frames=64,vpp_qsv=deinterlace=" ++ deint

/-- `build_qsv_cmd()` (lines 789-841).  Fallible: when `add_downmix` is set,
line 839 evaluates `build_downmix_args()` without the required
`output_index` argument, which raises `TypeError` in Python before any
command list exists; that exception is modelled as the `Except.error`
result.  (`build_vaapi_cmd` and `build_sw_cmd` end in the same
`audio_args` / `if add_downmix` / `-c:s copy` tail, lines 867-870 and
895-898, and fail identically.) -/
def build_qsv_cmd (ffmpeg_bin mkv out : String) (qsv_direct : Bool)
    (interlaced_effective : Option Bool) (maps audio_args : List String)
    (add_downmix : Bool) (qsv_global_quality : Nat) : Except String (List String) :=
  let cmd := [ffmpeg_bin] ++
    (if qsv_direct then
      ["-hwaccel", "qsv", "-qsv_device", "/dev/dri/renderD128",
       "-hwaccel_output_format", "qsv"]
    else
      ["-init_hw_device", "vaapi=va:/dev/dri/renderD128",
       "-init_hw_device", "qsv=qsv@va", "-filter_hw_device", "qsv"]) ++
    ["-i", mkv] ++
    ["-vf", build_qsv_filter interlaced_effective qsv_direct] ++ maps ++
    ["-c:v", "hevc_qsv", "-profile:v", "main",
     "-global_quality", toString qsv_global_quality, "-pix_fmt", "nv12"] ++
    audio_args
  if add_downmix then
    Except.error "TypeError: build_downmix_args() missing 1 required positional argument: output_index"
  else Except.ok (cmd ++ ["-c:s", "copy", out])

/-! ## The SQLite-backed job queue (`transcode_mqtt.py` lines 520-621) and the
worker loop (lines 1063-1077)

The `jobs` table is a list of rows; `nextId` models the `AUTOINCREMENT`
primary key.  Timestamps are `Int` seconds (`int(time.time())`).  Every
statement of `SQLiteJobQueue` runs under `self.lock` (the condition held by
`get`, the plain lock held by `task_done`), so one whole method call is one
atomic step on the state.  Payloads are stored as `json.dumps` of the job
dict by `put`, so the poison-pill branches of `_claim_next_job` (JSON parse
failure, non-dict payload; lines 597-611) cannot fire for states reachable
through `put` and are not modelled. -/

structure JobRow where
  id : Nat
  payload : String
  created_ts : Int
  claimed_ts : Option Int
deriving DecidableEq

structure QueueState where
  rows : List JobRow
  nextId : Nat
deriving DecidableEq

/-- `put(job)` (lines 548-557): insert with `claimed_ts = NULL`. -/
def sqlite_put (st : QueueState) (payload : String) (now : Int) : QueueState :=
  { rows := st.rows ++
      [{ id := st.nextId, payload := payload, created_ts := now,
         claimed_ts := Option.none }],
    nextId := st.nextId + 1 }

/-- The `WHERE claimed_ts IS NULL OR claimed_ts < reclaim_before` predicate of
`_claim_next_job`. -/
def claim_eligible (reclaim_before : Int) (r : JobRow) : Bool :=
  match r.claimed_ts with
  | Option.none => true
  | some ts => decide (ts < reclaim_before)

/-- The conditional `UPDATE jobs SET claimed_ts = ? WHERE id = ? AND
(claimed_ts IS NULL OR claimed_ts < ?)` (lines 584-591): the rows it
produces. -/
def claim_update_rows (rows : List JobRow) (job_id : Nat)
    (reclaim_before claimed_ts : Int) : List JobRow :=
  rows.map (fun r =>
    if r.id = job_id ∧ claim_eligible reclaim_before r = true then
      { r with claimed_ts := some claimed_ts }
    else r)

/-- The `cur.rowcount` of the same conditional update. -/
def claim_update_count (rows : List JobRow) (job_id : Nat)
    (reclaim_before : Int) : Nat :=
  rows.countP (fun r => decide (r.id = job_id) && claim_eligible reclaim_before r)

/-- `_claim_next_job` (lines 567-611): the `SELECT … ORDER BY id ASC LIMIT 1`
over eligible rows is the minimum-id eligible row; then the conditional
update, whose row count guards the claim (`if cur.rowcount != 1: return
None`, upon which `get` retries).  Both `int(time.time())` reads are the
single instant `now`. -/
def claim_next_job (st : QueueState) (now ttl : Int) : Option JobRow × QueueState :=
  let reclaim_before := now - ttl
  match List.argmin JobRow.id (st.rows.filter (claim_eligible reclaim_before)) with
  | Option.none => (Option.none, st)
  | some row =>
    let rows' := claim_update_rows st.rows row.id reclaim_before now
    if claim_update_count st.rows row.id reclaim_before ≠ 1 then
      (Option.none, { st with rows := rows' })
    else (some { row with claimed_ts := some now }, { st with rows := rows' })

/-- `task_done(job)` (lines 613-620): `DELETE FROM jobs WHERE id = ?`, a no-op
when the job carries no `_queue_id`. -/
def sqlite_task_done (st : QueueState) (job_id : Option Nat) : QueueState :=
  match job_id with
  | Option.none => st
  | some i => { st with rows := st.rows.filter (fun r => decide (r.id ≠ i)) }

/-- One round of `worker_loop` (lines 1063-1077) on the SQLite backing, for
the case where a claimable job exists.  `_transcode_ok` records whether
`transcode_dir` returned normally or raised — the `finally:` block calls
`task_done(job)` in both cases, which is why the result does not depend on
it. -/
def worker_iteration (st : QueueState) (now ttl : Int) (_transcode_ok : Bool) :
    QueueState :=
  match claim_next_job st now ttl with
  | (Option.none, st') => st'
  | (some row, st') => sqlite_task_done st' (some row.id)

/-! ## Intake validation (`transcode_mqtt.py` lines 502-517, 1083-1172)

A decoded JSON payload field is a Python value; `PyValue.bool` is kept apart
from `PyValue.int` but `isinstance(True, int)` holds in Python, which
`py_isinstance_int` reflects.  A filesystem path is its list of components
plus the answer of the `path.exists()` probe.  `on_message` returns the job
dict handed to `queue.put`, or `none` when the message is dropped (every
`return` after a `logging.warning`, and the generic `except` that catches
e.g. the `TypeError` from `Path(fp)` on a non-string files entry). -/

inductive PyScalar where
  | none
  | bool (b : Bool)
  | int (n : Int)
  | str (s : String)
deriving DecidableEq

inductive PyValue where
  | none
  | bool (b : Bool)
  | int (n : Int)
  | str (s : String)
  | list (xs : List PyScalar)
deriving DecidableEq

/-- Python `isinstance(v, int)` — true for `bool` as well, since `bool` is a
subclass of `int`. -/
def py_isinstance_int : PyValue → Bool
  | PyValue.bool _ => true
  | PyValue.int _ => true
  | _ => false

/-- The integer value a `bool`/`int` carries in comparisons. -/
def py_int_val : PyValue → Int
  | PyValue.bool b => if b then 1 else 0
  | PyValue.int n => n
  | _ => 0

def MQTT_PAYLOAD_VERSION : Int := 3

structure PathValue where
  parts : List String
  ex : Bool
deriving DecidableEq

structure MsgPayload where
  version : PyValue
  path : Option PathValue
  files : PyValue
  mode : PyValue
  source_type : PyValue
  interlaced : PyValue
deriving DecidableEq

structure AcceptedJob where
  path : Option PathValue
  mode : String
  source_type : String
  files : List String
  interlaced : Option Bool
deriving DecidableEq

/-- `infer_mode_from_path` (lines 502-508). -/
def infer_mode_from_path (movie_sub series_sub : String) (p : PathValue) :
    Option String :=
  let parts := p.parts.map py_lower
  if parts.contains (py_lower movie_sub) then some "movie"
  else if parts.contains (py_lower series_sub) then some "series"
  else Option.none

/-- `infer_source_type_from_path` (lines 511-517). -/
def infer_source_type_from_path (p : PathValue) : Option String :=
  let parts := p.parts.map py_lower
  if parts.contains "bluray" then some "bluray"
  else if parts.contains "dvd" then some "dvd"
  else Option.none

/-- The `files = [str(Path(fp).expanduser().resolve()) for fp in files_raw]`
comprehension: succeeds only when every entry is a string (a non-path-like
entry raises `TypeError`, caught by the outer `except`).  List entries are
restricted to scalars; a nested list entry would likewise fail path
conversion. -/
def py_resolve_files : List PyScalar → Option (List String)
  | [] => some []
  | PyScalar.str s :: rest => (py_resolve_files rest).map (fun l => s :: l)
  | _ :: _ => Option.none

/-- `on_message` (lines 1083-1172), given the configured movie/series subpath
names.  Returns the enqueued job, or `none` when the payload is rejected. -/
def on_message (movie_sub series_sub : String) (msg : MsgPayload) :
    Option AcceptedJob :=
  if ¬py_isinstance_int msg.version then Option.none
  else if py_int_val msg.version < MQTT_PAYLOAD_VERSION then Option.none
  else if py_int_val msg.version ≠ MQTT_PAYLOAD_VERSION then Option.none
  else
    let path : Option PathValue :=
      match msg.path with
      | some p => if p.ex then some p else Option.none
      | Option.none => Option.none
    let files_step : Option (List String) :=
      match msg.files with
      | PyValue.list xs =>
        if xs ≠ [] then py_resolve_files xs
        else if path = Option.none then Option.none else some []
      | _ => if path = Option.none then Option.none else some []
    match files_step with
    | Option.none => Option.none
    | some files =>
      let mode : Option String :=
        match msg.mode with
        | PyValue.str s =>
          if s = "movie" ∨ s = "series" then some s
          else path.bind (infer_mode_from_path movie_sub series_sub)
        | _ => path.bind (infer_mode_from_path movie_sub series_sub)
      match mode with
      | Option.none => Option.none
      | some mode =>
        let source_type : Option String :=
          match msg.source_type with
          | PyValue.str s =>
            if s = "dvd" ∨ s = "bluray" then some s
            else path.bind infer_source_type_from_path
          | _ => path.bind infer_source_type_from_path
        match source_type with
        | Option.none => Option.none
        | some source_type =>
          match msg.interlaced with
          | PyValue.none =>
            some { path := path, mode := mode, source_type := source_type,
                   files := files, interlaced := Option.none }
          | PyValue.bool b =>
            some { path := path, mode := mode, source_type := source_type,
                   files := files, interlaced := some b }
          | _ => Option.none

/-! ## The reconciler's publish phase (`rescan.py` lines 141-165, 408-471)

The scan phase (`collect_missing_series_dirs` / `collect_missing_movie_dirs`)
groups the source files whose computed destination is missing by parent
directory; the publish phase walks those groups.  The groups are the input
`dirs` here (one list of file names per directory, scan order), and
`ffprobe`'s height probe is the oracle `probe`. -/

/-- `filter_ready_mkvs(mkvs, allow_failures)` (lines 141-159): returns the
files kept for publishing, the files dropped because their probe failed, and
the first successfully probed height. -/
def filter_ready_mkvs (probe : String → Option Int) (allow_failures : Bool) :
    List String → List String × List String × Option Int
  | [] => ([], [], Option.none)
  | mkv :: rest =>
    let r := filter_ready_mkvs probe allow_failures rest
    match probe mkv with
    | Option.none =>
      if allow_failures then (mkv :: r.1, r.2.1, r.2.2)
      else (r.1, mkv :: r.2.1, r.2.2)
    | some h => (mkv :: r.1, r.2.1, some h)

/-- The chunking recursion of `chunk_list`, with the list length as fuel
(Python's `range(0, len(items), size)` runs `ceil(len/size)` steps). -/
def chunk_go (size : Nat) : Nat → List String → List (List String)
  | _, [] => []
  | 0, l => [l]
  | fuel + 1, l => l.take size :: chunk_go size fuel (l.drop size)

/-- `chunk_list(items, size)` (lines 162-165): `[items]` for a non-positive
size, otherwise slices of `size`. -/
def chunk_list (items : List String) (size : Int) : List (List String) :=
  if size ≤ 0 then [items]
  else chunk_go size.toNat items.length items

/-- One directory's published `files` fields (lines 411-440 for series and
442-471 for movies, which run the same filter/skip/batch sequence): directories
whose every file failed the probe are skipped, otherwise one envelope per
batch of 5. -/
def publish_dir (probe : String → Option Int) (allow_failures : Bool)
    (mkvs : List String) : List (List String) :=
  let r := filter_ready_mkvs probe allow_failures mkvs
  if r.1 = [] then [] else chunk_list r.1 5

/-- The `files` fields of every envelope the reconciler publishes, over all
scanned directories. -/
def published_envelopes (probe : String → Option Int) (allow_failures : Bool)
    (dirs : List (List String)) : List (List String) :=
  dirs.flatMap (publish_dir probe allow_failures)

/-- The source files whose computed destination was missing at scan time. -/
def missing_files (dirs : List (List String)) : List String :=
  dirs.flatMap id

/-! ## Helper lemmas about the encoder state machine -/

lemma run_attempts_false_eq (ok : EncoderKind → Nat → Bool) (e : EncoderKind) :
    ∀ attempts : List Nat,
      run_attempts ok false e attempts =
        Except.ok (stop_at_first_success ok (attempts.map (fun a => (e, a))),
          attempts.any (ok e))
  | [] => rfl
  | a :: rest => by
    cases h : ok e a with
    | true => simp [run_attempts, stop_at_first_success, h]
    | false =>
      simp [run_attempts, stop_at_first_success, h, run_attempts_false_eq ok e rest]

lemma run_attempts_true_error (ok : EncoderKind → Nat → Bool) (e : EncoderKind) :
    ∀ attempts : List Nat, attempts ≠ [] →
      run_attempts ok true e attempts = Except.error cmd_builder_type_error
  | [], h => absurd rfl h
  | _ :: _, _ => rfl

lemma range_succ_ne_nil (m : Nat) : List.range (m + 1) ≠ [] := by
  have h := List.length_range (m + 1)
  intro hnil
  rw [hnil] at h
  simp at h

lemma run_hw_encoders_true_error (ok : EncoderKind → Nat → Bool) (m : Nat) :
    ∀ es : List EncoderKind, es ≠ [] →
      run_hw_encoders ok true m es = Except.error cmd_builder_type_error
  | [], h => absurd rfl h
  | e :: rest, _ => by
    simp [run_hw_encoders, run_attempts_true_error ok e _ (range_succ_ne_nil m)]

lemma any_map_general {α β : Type} (f : α → β) (p : β → Bool) :
    ∀ l : List α, (l.map f).any p = l.any (fun a => p (f a))
  | [] => rfl
  | x :: xs => by simp [List.any_cons, any_map_general f p xs]

lemma stop_at_first_success_append (ok : EncoderKind → Nat → Bool) :
    ∀ xs ys : List (EncoderKind × Nat),
      stop_at_first_success ok (xs ++ ys) =
        if xs.any (fun p => ok p.1 p.2) then stop_at_first_success ok xs
        else stop_at_first_success ok xs ++ stop_at_first_success ok ys
  | [], ys => by simp [stop_at_first_success]
  | x :: xs, ys => by
    simp only [List.cons_append, stop_at_first_success, List.any_cons, List.append_eq]
    cases h : ok x.1 x.2 with
    | true => simp [h]
    | false =>
      rw [stop_at_first_success_append ok xs ys]
      cases hxs : xs.any (fun p => ok p.1 p.2) <;> simp [hxs]

lemma planned_attempts_any (ok : EncoderKind → Nat → Bool) (m : Nat) :
    ∀ es : List EncoderKind,
      (planned_attempts es m).any (fun p => ok p.1 p.2) =
        es.any (fun e => (List.range (m + 1)).any (ok e))
  | [] => rfl
  | e :: rest => by
    simp only [planned_attempts, List.flatMap_cons, List.any_append, List.any_cons]
    rw [any_map_general]
    have hrec := planned_attempts_any ok m rest
    simp only [planned_attempts] at hrec
    rw [hrec]

lemma run_hw_encoders_false_eq (ok : EncoderKind → Nat → Bool) (m : Nat) :
    ∀ es : List EncoderKind,
      run_hw_encoders ok false m es =
        Except.ok (stop_at_first_success ok (planned_attempts es m),
          es.any (fun e => (List.range (m + 1)).any (ok e)))
  | [] => by simp [run_hw_encoders, planned_attempts, stop_at_first_success]
  | e :: rest => by
    simp only [run_hw_encoders, run_attempts_false_eq, planned_attempts,
      List.flatMap_cons, List.any_cons]
    rw [stop_at_first_success_append, any_map_general]
    cases h : (List.range (m + 1)).any (ok e) with
    | true => simp [h]
    | false =>
      have ih := run_hw_encoders_false_eq ok m rest
      simp only [planned_attempts] at ih
      simp [h, ih]

/-- Counterexample to claim C1.  The claim's hypotheses (non-VC-1 codec,
software fallback enabled, `MAX_HW_RETRIES = 2`) do not exclude a
configuration with `ENABLE_AAC_DOWNMIX` and a non-copy audio policy.
There, even under an oracle for which the very first QSV attempt would
succeed, the first `cmd = cmd_builder()` call (line 922) raises `TypeError`
(the C3 slip) before any ffmpeg run: the worker runs zero encoder attempts
and the item aborts, while the claim requires it to run attempt (QSV, 0)
and stop at that first success. -/
theorem transcode_C1_counterexample :
    transcode_attempts (fun _ _ => true) (some "h264") 2 true true =
      Except.error cmd_builder_type_error ∧
    stop_at_first_success (fun _ _ => true)
      [(EncoderKind.qsv, 0), (EncoderKind.qsv, 1), (EncoderKind.qsv, 2),
       (EncoderKind.vaapi, 0), (EncoderKind.vaapi, 1), (EncoderKind.vaapi, 2),
       (EncoderKind.software, 0)] = [(EncoderKind.qsv, 0)] := by
  constructor
  · rfl
  · rfl

/-- Claim C1 as amended.  When the stereo downmix is not active (so the
command builders do not raise): for a work item whose probed video codec is
not VC-1 and with `MAX_HW_RETRIES = 2`, the worker with software fallback
enabled runs the attempts in the exact order QSV, QSV, QSV, VAAPI, VAAPI,
VAAPI, SW and stops at the first success, and with the fallback disabled
the sequence ends at the third VAAPI attempt.  When the downmix is active
with a non-copy policy, every command builder raises `TypeError` and the
worker runs zero encoder attempts. -/
theorem transcode_C1_encoder_order (ok : EncoderKind → Nat → Bool)
    (video_codec : Option String) (h : video_codec ≠ some "vc1") :
    (transcode_attempts ok video_codec 2 true false).map Prod.fst =
      Except.ok (stop_at_first_success ok
        [(EncoderKind.qsv, 0), (EncoderKind.qsv, 1), (EncoderKind.qsv, 2),
         (EncoderKind.vaapi, 0), (EncoderKind.vaapi, 1), (EncoderKind.vaapi, 2),
         (EncoderKind.software, 0)]) ∧
    (transcode_attempts ok video_codec 2 false false).map Prod.fst =
      Except.ok (stop_at_first_success ok
        [(EncoderKind.qsv, 0), (EncoderKind.qsv, 1), (EncoderKind.qsv, 2),
         (EncoderKind.vaapi, 0), (EncoderKind.vaapi, 1), (EncoderKind.vaapi, 2)]) ∧
    (∀ enable_sw_fallback : Bool,
      transcode_attempts ok video_codec 2 enable_sw_fallback true =
        Except.error cmd_builder_type_error) := by
  have henc : hw_encoders video_codec = [EncoderKind.qsv, EncoderKind.vaapi] := by
    simp [hw_encoders, h]
  have hplan : planned_attempts [EncoderKind.qsv, EncoderKind.vaapi] 2 =
      [(EncoderKind.qsv, 0), (EncoderKind.qsv, 1), (EncoderKind.qsv, 2),
       (EncoderKind.vaapi, 0), (EncoderKind.vaapi, 1), (EncoderKind.vaapi, 2)] := rfl
  have hsplit :
      ([(EncoderKind.qsv, 0), (EncoderKind.qsv, 1), (EncoderKind.qsv, 2),
        (EncoderKind.vaapi, 0), (EncoderKind.vaapi, 1), (EncoderKind.vaapi, 2),
        (EncoderKind.software, 0)] : List (EncoderKind × Nat)) =
      [(EncoderKind.qsv, 0), (EncoderKind.qsv, 1), (EncoderKind.qsv, 2),
       (EncoderKind.vaapi, 0), (EncoderKind.vaapi, 1), (EncoderKind.vaapi, 2)] ++
        [(EncoderKind.software, 0)] := rfl
  have hany := planned_attempts_any ok 2 [EncoderKind.qsv, EncoderKind.vaapi]
  rw [hplan] at hany
  have hkey := run_hw_encoders_false_eq ok 2 [EncoderKind.qsv, EncoderKind.vaapi]
  rw [hplan] at hkey
  refine ⟨?_, ?_, ?_⟩
  · rw [hsplit, stop_at_first_success_append, hany]
    simp only [transcode_attempts, henc, hkey]
    cases hA : ([EncoderKind.qsv, EncoderKind.vaapi] : List EncoderKind).any
        (fun e => (List.range (2 + 1)).any (ok e)) with
    | true => simp [hA, Except.map]
    | false =>
      cases hsw : ok EncoderKind.software 0 with
      | true => simp [hA, stop_at_first_success, hsw, Except.map]
      | false => simp [hA, stop_at_first_success, hsw, Except.map]
  · simp only [transcode_attempts, henc, hkey]
    cases hA : ([EncoderKind.qsv, EncoderKind.vaapi] : List EncoderKind).any
        (fun e => (List.range (2 + 1)).any (ok e)) with
    | true => simp [hA, Except.map]
    | false => simp [hA, Except.map]
  · intro enable_sw_fallback
    simp [transcode_attempts, henc,
      run_hw_encoders_true_error ok 2 [EncoderKind.qsv, EncoderKind.vaapi] (by simp)]

/-- The attempt oracle used by the C1 witness: only the second VAAPI attempt
succeeds. -/
def c1_witness_ok : EncoderKind → Nat → Bool :=
  fun e a => decide (e = EncoderKind.vaapi ∧ a = 1)

/-- Witness for C1 at a concrete non-VC-1 codec and oracle. -/
theorem transcode_C1_encoder_order_witness :
    (some "h264" ≠ some "vc1") ∧
    ((transcode_attempts c1_witness_ok (some "h264") 2 true false).map Prod.fst =
      Except.ok (stop_at_first_success c1_witness_ok
        [(EncoderKind.qsv, 0), (EncoderKind.qsv, 1), (EncoderKind.qsv, 2),
         (EncoderKind.vaapi, 0), (EncoderKind.vaapi, 1), (EncoderKind.vaapi, 2),
         (EncoderKind.software, 0)]) ∧
    (transcode_attempts c1_witness_ok (some "h264") 2 false false).map Prod.fst =
      Except.ok (stop_at_first_success c1_witness_ok
        [(EncoderKind.qsv, 0), (EncoderKind.qsv, 1), (EncoderKind.qsv, 2),
         (EncoderKind.vaapi, 0), (EncoderKind.vaapi, 1), (EncoderKind.vaapi, 2)]) ∧
    (∀ enable_sw_fallback : Bool,
      transcode_attempts c1_witness_ok (some "h264") 2 enable_sw_fallback true =
        Except.error cmd_builder_type_error)) :=
  ⟨by decide, transcode_C1_encoder_order c1_witness_ok (some "h264") (by decide)⟩

/-- Counterexample to claim C2.  A work item without an explicit envelope
hint whose container metadata says `field_order = "progressive"` but whose
idet sample has an interlaced majority (TFF+BFF = 10 against 2 progressive
frames) is decided interlaced by the code, not progressive as the claim
requires: the idet branch of `detect_interlaced` (lines 161-167) precedes
the `field_order == "progressive"` branch (lines 176-181). -/
theorem transcode_C2_counterexample :
    interlaced_effective Option.none "progressive"
        (some { tff := 10, bff := 0, progressive := 2, undetermined := 0 }) = some true ∧
    (some true : Option Bool) ≠ some false := by
  constructor
  · rfl
  · decide

/-- Claim C2 as amended: for a work item without an explicit hint, metadata
values denoting interlaced decide interlaced first; otherwise a determinate
idet analysis decides (ties and all-zero counts are undetermined); only when
the analysis is indeterminate does the remaining metadata decide
("progressive" → progressive, unknown/empty → the interlaced fallback, any
other value → progressive).  The code equals this priority function. -/
theorem transcode_C2_amended (hint : Option Bool) (field_order : String)
    (idet_counts : Option IdetCounts) :
    interlaced_effective hint field_order idet_counts =
      interlace_priority_amended hint field_order idet_counts := by
  cases hint with
  | some b => rfl
  | none =>
    show detect_interlaced field_order idet_counts = _
    unfold detect_interlaced interlace_priority_amended
    by_cases h1 : field_order ∈ interlaced_meta
    · simp [h1]
    · simp only [h1, if_false]
      rcases hid : idet_counts.bind decide_idet with _ | b
      · simp only [hid]
        by_cases h2 : field_order = "progressive"
        · simp [h2]
        · by_cases h3 : field_order = "unknown" ∨ field_order = ""
          · simp [h2, h3]
          · have h4 : field_order ≠ "" := by
              intro hempty
              exact h3 (Or.inr hempty)
            simp [h2, h3, h4]
      · cases b with
        | true => simp [hid]
        | false => simp [hid]

/-- The C3 work item: one probed audio stream (source index 1, 6 channels,
language `eng`), Blu-ray source with the default `AUDIO_MODE=auto` (which
resolves to `encode`), and `ENABLE_AAC_DOWNMIX` enabled. -/
def c3_selected_audio : List StreamInfo :=
  [{ index := some 1, channels := some 6, language := some "eng" }]

def c3_plan : List String × List String × Bool :=
  plan_audio c3_selected_audio (audio_mode_resolved "auto" "bluray") "bluray" true

/-- Claim C3 is what the code intends but the code crashes instead: with the
downmix enabled and an effective policy of `encode`, lines 772-777 already
append the single AAC stereo downmix of the first selected stream to
`audio_args` (exactly one `aac` entry below), but every command builder then
re-evaluates `if add_downmix: cmd.extend(build_downmix_args())` (lines
838-839, 868-869, 896-897) — a call that omits the required `output_index`
parameter and therefore raises `TypeError` before any ffmpeg command can be
assembled, so no encoder command is generated at all.  (The project's own
test `test_build_downmix_args` calls `build_downmix_args(1)` with the
argument.) -/
theorem transcode_C3_downmix_crash :
    c3_plan.2.2 = true ∧
    c3_plan.2.1 =
      ["-c:a:0", "eac3", "-b:a:0", "768k",
       "-c:a:1", "aac", "-b:a:1", "192k", "-ac:a:1", "2"] ∧
    c3_plan.2.1.count "aac" = 1 ∧
    build_qsv_cmd "ffmpeg" "/raw/bluray/Filme/in.mkv" "/media/Filme/in.mkv" false
        (some false) c3_plan.1 c3_plan.2.1 c3_plan.2.2 21 =
      Except.error
        "TypeError: build_downmix_args() missing 1 required positional argument: output_index" := by
  refine ⟨rfl, rfl, ?_, rfl⟩
  decide

/-! ## Helper lemmas about lifecycle events -/

lemma is_final_eq_false_of_is_start {e : Event} (h : is_start e = true) :
    is_final e = false := by
  cases e with
  | start l => rfl
  | done => exact absurd h (by simp [is_start])
  | error => exact absurd h (by simp [is_start])

lemma hw_encoders_ne_nil (video_codec : Option String) :
    hw_encoders video_codec ≠ [] := by
  unfold hw_encoders
  split <;> simp

lemma hw_encoders_length_le (video_codec : Option String) :
    (hw_encoders video_codec).length ≤ 2 := by
  unfold hw_encoders
  split <;> simp

lemma run_hw_events_true_error (ok : EncoderKind → Nat → Bool) (m : Nat) :
    ∀ es : List EncoderKind, es ≠ [] →
      run_hw_events ok true m es = Except.error cmd_builder_type_error
  | [], h => absurd rfl h
  | e :: _, _ => by
    simp [run_hw_events, run_attempts_true_error ok e _ (range_succ_ne_nil m)]

lemma run_hw_events_false_shape (ok : EncoderKind → Nat → Bool) (m : Nat) :
    ∀ es : List EncoderKind,
      ∃ r, run_hw_events ok false m es = Except.ok r ∧
        (∀ e ∈ r.1, is_start e = true) ∧ r.1.length ≤ es.length ∧
        (es ≠ [] → 1 ≤ r.1.length)
  | [] => ⟨([], false), rfl, by simp, by simp, by simp⟩
  | e :: rest => by
    obtain ⟨r', hr', hstart', hlen', _⟩ := run_hw_events_false_shape ok m rest
    cases hA : (List.range (m + 1)).any (ok e) with
    | true =>
      refine ⟨([Event.start (encoder_label e)], true), ?_, ?_, ?_, ?_⟩
      · simp [run_hw_events, run_attempts_false_eq, hA]
      · intro ev hev
        simp only [List.mem_singleton] at hev
        subst hev
        rfl
      · simp
      · intro _
        simp
    | false =>
      refine ⟨(Event.start (encoder_label e) :: r'.1, r'.2), ?_, ?_, ?_, ?_⟩
      · simp [run_hw_events, run_attempts_false_eq, hA, hr']
      · intro ev hev
        rcases List.mem_cons.mp hev with rfl | hev
        · rfl
        · exact hstart' ev hev
      · simp only [List.length_cons]
        exact Nat.succ_le_succ hlen'
      · intro _
        simp

lemma item_events_true (ok : EncoderKind → Nat → Bool) (video_codec : Option String)
    (m : Nat) (swF : Bool) :
    item_events ok video_codec m swF true = ([Event.error], ItemOutcome.aborted) := by
  simp [item_events, run_hw_events_true_error ok m (hw_encoders video_codec)
    (hw_encoders_ne_nil video_codec)]

lemma item_events_shape (ok : EncoderKind → Nat → Bool) (video_codec : Option String)
    (m : Nat) (swF ad : Bool) :
    ∃ ss fin, (item_events ok video_codec m swF ad).1 = ss ++ [fin] ∧
      (∀ e ∈ ss, is_start e = true) ∧ (ad = false → 1 ≤ ss.length) ∧
      ss.length ≤ 3 ∧ is_final fin = true := by
  cases ad with
  | true =>
    refine ⟨[], Event.error, ?_, ?_, ?_, ?_, rfl⟩
    · rw [item_events_true]
      rfl
    · simp
    · intro habs
      exact absurd habs (by simp)
    · simp
  | false =>
    obtain ⟨r, hr, hstart, hlen', hpos⟩ :=
      run_hw_events_false_shape ok m (hw_encoders video_codec)
    have hlen2 : r.1.length ≤ 2 := le_trans hlen' (hw_encoders_length_le video_codec)
    have hlen1 : 1 ≤ r.1.length := hpos (hw_encoders_ne_nil video_codec)
    have hstartsw : ∀ e ∈ r.1 ++ [Event.start "software"], is_start e = true := by
      intro e he
      rcases List.mem_append.mp he with he | he
      · exact hstart e he
      · simp only [List.mem_singleton] at he
        subst he
        rfl
    simp only [item_events, hr]
    cases h : r.2 with
    | true =>
      exact ⟨r.1, Event.done, by simp [h], hstart, fun _ => hlen1,
        le_trans hlen2 (by omega), rfl⟩
    | false =>
      cases hsw : swF with
      | false =>
        exact ⟨r.1, Event.error, by simp [h], hstart, fun _ => hlen1,
          le_trans hlen2 (by omega), rfl⟩
      | true =>
        cases hs : ok EncoderKind.software 0 with
        | true =>
          refine ⟨r.1 ++ [Event.start "software"], Event.done, by simp [h, hs],
            hstartsw, ?_, ?_, rfl⟩
          · intro _
            simp only [List.length_append, List.length_singleton]
            omega
          · simp only [List.length_append, List.length_singleton]
            omega
        | false =>
          refine ⟨r.1 ++ [Event.start "software"], Event.error, by simp [h, hs],
            hstartsw, ?_, ?_, rfl⟩
          · intro _
            simp only [List.length_append, List.length_singleton]
            omega
          · simp only [List.length_append, List.length_singleton]
            omega

/-- Counterexample to claim C4, in two reachable configurations.  First, a
two-item job on which every ffmpeg invocation fails (downmix off, software
fallback on, `MAX_HW_RETRIES = 2`): the first item gets three `start`
events — one per encoder entered (lines 928-939 publish at `attempt == 0`
of each hardware encoder, lines 1006-1016 before the software run) — not
exactly one, and the second item gets no events at all because the software
failure re-raises (line 1054) and aborts `transcode_dir`.  Second, with the
downmix enabled, a reached item publishes zero `start` events and a single
`error`: the first `cmd_builder()` call raises `TypeError` (line 922)
before the attempt-0 `start`, and the handler at lines 1043-1054 publishes
`error` and re-raises. -/
theorem transcode_C4_counterexample :
    process_job 2 true false
        [(some "h264", fun _ _ => false), (some "h264", fun _ _ => false)] =
      [[Event.start "qsv", Event.start "vaapi", Event.start "software", Event.error],
       []] ∧
    List.countP is_start
        [Event.start "qsv", Event.start "vaapi", Event.start "software", Event.error] = 3 ∧
    process_job 2 true true [(some "h264", fun _ _ => true)] = [[Event.error]] := by
  refine ⟨rfl, rfl, rfl⟩

/-- Claim C4 as amended: every per-item event list that the worker publishes
for a claimed job is either empty (the item came after an aborting item and
was never reached) or consists of `start` events only — one per encoder
stage entered, at most three, and at least one when the downmix is inactive
so that the command builders do not raise — followed by exactly one
terminal event, a single `done` or a single `error`; in a downmix-enabled
non-copy configuration every builder raises before any `start`, so a
reached item's events are exactly one `error`. -/
theorem transcode_C4_amended (m : Nat) (swF ad : Bool)
    (items : List (Option String × (EncoderKind → Nat → Bool)))
    (evs : List Event) (hmem : evs ∈ process_job m swF ad items) :
    (evs = [] ∨
      ∃ ss fin, evs = ss ++ [fin] ∧ (∀ e ∈ ss, is_start e = true) ∧
        (ad = false → 1 ≤ ss.length) ∧ ss.length ≤ 3 ∧ is_final fin = true ∧
        evs.countP is_final = 1) ∧
    (ad = true → evs = [] ∨ evs = [Event.error]) := by
  constructor
  · induction items with
    | nil => simp [process_job] at hmem
    | cons item rest ih =>
      have hitem : ∀ h : evs = (item_events item.2 item.1 m swF ad).1,
          evs = [] ∨
          ∃ ss fin, evs = ss ++ [fin] ∧ (∀ e ∈ ss, is_start e = true) ∧
            (ad = false → 1 ≤ ss.length) ∧ ss.length ≤ 3 ∧ is_final fin = true ∧
            evs.countP is_final = 1 := by
        intro h
        obtain ⟨ss, fin, heq, hss, h1, h3, hfin⟩ :=
          item_events_shape item.2 item.1 m swF ad
        right
        refine ⟨ss, fin, h ▸ heq, hss, h1, h3, hfin, ?_⟩
        rw [h, heq, List.countP_append]
        have hz : ss.countP is_final = 0 := by
          rw [List.countP_eq_zero]
          intro e he
          simp [is_final_eq_false_of_is_start (hss e he)]
        rw [hz]
        simp [List.countP_cons, hfin]
      simp only [process_job] at hmem
      by_cases habort : (item_events item.2 item.1 m swF ad).2 = ItemOutcome.aborted
      · simp only [habort, if_true] at hmem
        rcases List.mem_cons.mp hmem with h | h
        · exact hitem h
        · left
          rcases List.mem_map.mp h with ⟨_, _, hnil⟩
          exact hnil.symm
      · simp only [habort, if_false] at hmem
        rcases List.mem_cons.mp hmem with h | h
        · exact hitem h
        · exact ih h
  · intro had
    subst had
    cases items with
    | nil => simp [process_job] at hmem
    | cons item rest =>
      simp [process_job, item_events_true] at hmem
      rcases hmem with h | h
      · right
        exact h
      · left
        exact h.2

/-- Witness for C4 at a concrete one-item job whose first QSV attempt
succeeds, with the downmix inactive. -/
theorem transcode_C4_amended_witness :
    ([Event.start "qsv", Event.done] ∈
      process_job 2 true false [(some "h264", fun _ _ => true)]) ∧
    (([Event.start "qsv", Event.done] = [] ∨
      ∃ ss fin, [Event.start "qsv", Event.done] = ss ++ [fin] ∧
        (∀ e ∈ ss, is_start e = true) ∧ (false = false → 1 ≤ ss.length) ∧
        ss.length ≤ 3 ∧ is_final fin = true ∧
        List.countP is_final [Event.start "qsv", Event.done] = 1) ∧
    (false = true → [Event.start "qsv", Event.done] = [] ∨
      [Event.start "qsv", Event.done] = [Event.error])) :=
  ⟨by decide,
   transcode_C4_amended 2 true false [(some "h264", fun _ _ => true)]
     [Event.start "qsv", Event.done] (by decide)⟩

/-! ## Helper lemmas about the SQLite queue -/

lemma claim_update_rows_map_id (rows : List JobRow) (job_id : Nat)
    (reclaim_before claimed_ts : Int) :
    (claim_update_rows rows job_id reclaim_before claimed_ts).map JobRow.id =
      rows.map JobRow.id := by
  unfold claim_update_rows
  rw [List.map_map]
  apply List.map_congr_left
  intro r _
  by_cases h : r.id = job_id ∧ claim_eligible reclaim_before r = true
  · simp [h]
  · simp [h]

lemma claim_next_job_map_id (st : QueueState) (now ttl : Int) :
    ((claim_next_job st now ttl).2).rows.map JobRow.id = st.rows.map JobRow.id := by
  rcases h : List.argmin JobRow.id (st.rows.filter (claim_eligible (now - ttl))) with
    _ | row
  · simp [claim_next_job, h]
  · by_cases hc : claim_update_count st.rows row.id (now - ttl) = 1
    · simp [claim_next_job, h, hc, claim_update_rows_map_id]
    · simp [claim_next_job, h, hc, claim_update_rows_map_id]

/-- Counterexample to claim C5.  A freshly enqueued job whose processing
fails (`transcode_dir` raises) is nevertheless deleted from the store: the
`finally:` block of `worker_loop` (lines 1073-1077) calls `task_done(job)`
after the `except` handler, so a processing error does not leave the job
recoverable. -/
theorem transcode_C5_counterexample :
    (sqlite_put { rows := [], nextId := 1 } "job" 0).rows ≠ [] ∧
    (worker_iteration (sqlite_put { rows := [], nextId := 1 } "job" 0) 10 300
        false).rows = [] := by
  constructor
  · decide
  · rfl

/-- Claim C5 as amended: with the SQLite backing a queued job's row exists
from `put` onwards and survives `get`'s claim (so a crash — process death —
between `get` and `task_done` leaves it in the store, reclaimable after the
claim TTL); but `task_done` runs in the worker's `finally:` block whether
`transcode_dir` returned or raised, so a processing error deletes the row
exactly like a success — only a crash before `task_done` leaves the job
recoverable. -/
theorem transcode_C5_amended :
    (∀ (st : QueueState) (payload : String) (now : Int),
      ({ id := st.nextId, payload := payload, created_ts := now,
         claimed_ts := Option.none } : JobRow) ∈ (sqlite_put st payload now).rows) ∧
    (∀ (st : QueueState) (now ttl : Int),
      ((claim_next_job st now ttl).2).rows.map JobRow.id = st.rows.map JobRow.id) ∧
    (∀ (st : QueueState) (now ttl : Int) (r : JobRow) (st' : QueueState)
        (transcode_ok : Bool),
      claim_next_job st now ttl = (some r, st') →
      r.id ∉ ((worker_iteration st now ttl transcode_ok).rows.map JobRow.id)) := by
  refine ⟨?_, claim_next_job_map_id, ?_⟩
  · intro st payload now
    simp [sqlite_put]
  · intro st now ttl r st' b h
    unfold worker_iteration
    rw [h]
    simp only [sqlite_task_done, List.mem_map, List.mem_filter]
    rintro ⟨row, ⟨_, hkeep⟩, hid⟩
    rw [hid] at hkeep
    simp at hkeep

/-- The queued row and states used by the C5 witness. -/
def c5_row : JobRow :=
  { id := 1, payload := "p", created_ts := 5, claimed_ts := Option.none }

def c5_state : QueueState := { rows := [c5_row], nextId := 2 }

def c5_claimed_row : JobRow :=
  { id := 1, payload := "p", created_ts := 5, claimed_ts := some 10 }

def c5_claimed_state : QueueState := { rows := [c5_claimed_row], nextId := 2 }

/-- Witness for C5 at a concrete single-job state, for the failing-transcode
case. -/
theorem transcode_C5_amended_witness :
    (c5_row ∈ (sqlite_put { rows := [], nextId := 1 } "p" 5).rows) ∧
    (((claim_next_job c5_state 10 300).2).rows.map JobRow.id =
      c5_state.rows.map JobRow.id) ∧
    ((1 : Nat) ∉ ((worker_iteration c5_state 10 300 false).rows.map JobRow.id)) := by
  refine ⟨transcode_C5_amended.1 { rows := [], nextId := 1 } "p" 5,
    transcode_C5_amended.2.1 c5_state 10 300, ?_⟩
  have h := transcode_C5_amended.2.2 c5_state 10 300 c5_claimed_row
    c5_claimed_state false (by decide)
  exact h

lemma claim_next_job_some_spec (st : QueueState) (now ttl : Int) (r : JobRow)
    (st' : QueueState) (h : claim_next_job st now ttl = (some r, st')) :
    ∃ row ∈ st.rows, claim_eligible (now - ttl) row = true ∧
      r = { row with claimed_ts := some now } ∧
      st'.rows = claim_update_rows st.rows row.id (now - ttl) now ∧
      ∀ r' ∈ st.rows, claim_eligible (now - ttl) r' = true → row.id ≤ r'.id := by
  rcases harg : List.argmin JobRow.id (st.rows.filter (claim_eligible (now - ttl))) with
    _ | row
  · simp [claim_next_job, harg] at h
  · have hoptmem : row ∈ List.argmin JobRow.id
        (st.rows.filter (claim_eligible (now - ttl))) := Option.mem_def.mpr harg
    have hrowmem := List.argmin_mem hoptmem
    rw [List.mem_filter] at hrowmem
    by_cases hc : claim_update_count st.rows row.id (now - ttl) = 1
    · simp only [claim_next_job, harg, hc, ne_eq, not_true_eq_false, if_false,
        Prod.mk.injEq, Option.some.injEq] at h
      refine ⟨row, hrowmem.1, hrowmem.2, ?_, ?_, ?_⟩
      · exact h.1.symm
      · rw [← h.2]
      · intro r' hr' helig
        exact List.le_of_mem_argmin (List.mem_filter.mpr ⟨hr', helig⟩) hoptmem
    · simp [claim_next_job, harg, hc] at h

lemma jobrow_eq_of_id_eq :
    ∀ l : List JobRow, (l.map JobRow.id).Nodup →
      ∀ a ∈ l, ∀ b ∈ l, a.id = b.id → a = b
  | [], _, a, ha, _, _, _ => absurd ha (List.not_mem_nil a)
  | x :: xs, hnd, a, ha, b, hb, hab => by
    rw [List.map_cons, List.nodup_cons] at hnd
    rcases List.mem_cons.mp ha with rfl | ha'
    · rcases List.mem_cons.mp hb with rfl | hb'
      · rfl
      · exact absurd (hab.symm ▸ List.mem_map_of_mem JobRow.id hb') hnd.1
    · rcases List.mem_cons.mp hb with rfl | hb'
      · exact absurd (hab ▸ List.mem_map_of_mem JobRow.id ha') hnd.1
      · exact jobrow_eq_of_id_eq xs hnd.2 a ha' b hb' hab

/-- Claim C6.  First, a successful `get` claim returns the lowest-id job
among those whose `claimed_ts` is null or older than the TTL, stamped with
the claim time.  Second, the conditional update is guarded by the observed
claim state: on a state where no row with the selected id is still eligible
(the claim state changed in between), it affects zero rows and leaves the
table unchanged — `_claim_next_job` then returns `None` and `get` loops and
retries.  Third, two consecutive claims (the serialization the queue lock
enforces on concurrent `get`s) within the claim TTL return jobs with
distinct ids. -/
theorem transcode_C6_claim_protocol :
    (∀ (st : QueueState) (now ttl : Int) (r : JobRow) (st' : QueueState),
      claim_next_job st now ttl = (some r, st') →
      ∃ row ∈ st.rows, claim_eligible (now - ttl) row = true ∧
        r = { row with claimed_ts := some now } ∧
        ∀ r' ∈ st.rows, claim_eligible (now - ttl) r' = true → row.id ≤ r'.id) ∧
    (∀ (rows : List JobRow) (job_id : Nat) (rb now : Int),
      (∀ r ∈ rows, r.id = job_id → claim_eligible rb r = false) →
      claim_update_count rows job_id rb = 0 ∧
      claim_update_rows rows job_id rb now = rows) ∧
    (∀ (st : QueueState) (now₁ now₂ ttl : Int) (r₁ r₂ : JobRow)
      (st₁ st₂ : QueueState),
      (st.rows.map JobRow.id).Nodup →
      claim_next_job st now₁ ttl = (some r₁, st₁) →
      claim_next_job st₁ now₂ ttl = (some r₂, st₂) →
      now₂ - ttl ≤ now₁ →
      r₁.id ≠ r₂.id) := by
  refine ⟨?_, ?_, ?_⟩
  · intro st now ttl r st' h
    obtain ⟨row, hmem, helig, hr, _, hmin⟩ := claim_next_job_some_spec st now ttl r st' h
    exact ⟨row, hmem, helig, hr, hmin⟩
  · intro rows job_id rb now hno
    constructor
    · rw [claim_update_count, List.countP_eq_zero]
      intro r hr
      by_cases hid : r.id = job_id
      · simp [hid, hno r hr hid]
      · simp [hid]
    · unfold claim_update_rows
      conv_rhs => rw [← List.map_id rows]
      apply List.map_congr_left
      intro r hr
      by_cases hid : r.id = job_id
      · simp [hid, hno r hr hid]
      · simp [hid]
  · intro st now₁ now₂ ttl r₁ r₂ st₁ st₂ hnd h1 h2 hle heq
    obtain ⟨row₁, hrow₁mem, helig₁, hr₁, hrows₁, _⟩ :=
      claim_next_job_some_spec st now₁ ttl r₁ st₁ h1
    obtain ⟨row₂, hrow₂mem, helig₂, hr₂, _, _⟩ :=
      claim_next_job_some_spec st₁ now₂ ttl r₂ st₂ h2
    rw [hrows₁] at hrow₂mem
    unfold claim_update_rows at hrow₂mem
    rcases List.mem_map.mp hrow₂mem with ⟨r₀, hr₀mem, hr₀eq⟩
    have hid₁ : r₁.id = row₁.id := by rw [hr₁]
    have hid₂ : r₂.id = row₂.id := by rw [hr₂]
    have hidf : row₂.id = r₀.id := by
      rw [← hr₀eq]
      by_cases hcond : r₀.id = row₁.id ∧ claim_eligible (now₁ - ttl) r₀ = true
      · simp [hcond]
      · simp [hcond]
    have hid₀ : r₀.id = row₁.id := by omega
    have hr₀row₁ : r₀ = row₁ := jobrow_eq_of_id_eq st.rows hnd r₀ hr₀mem row₁ hrow₁mem hid₀
    have hrow₂eq : row₂ = { row₁ with claimed_ts := some now₁ } := by
      rw [← hr₀eq, hr₀row₁]
      simp [helig₁]
    rw [hrow₂eq] at helig₂
    unfold claim_eligible at helig₂
    simp only [decide_eq_true_eq] at helig₂
    omega

/-- The two-job state used by the C6 witness. -/
def c6_row_one : JobRow :=
  { id := 1, payload := "a", created_ts := 0, claimed_ts := Option.none }

def c6_row_two : JobRow :=
  { id := 2, payload := "b", created_ts := 0, claimed_ts := Option.none }

def c6_state : QueueState := { rows := [c6_row_one, c6_row_two], nextId := 3 }

def c6_state_one : QueueState :=
  { rows := [{ c6_row_one with claimed_ts := some 1000 }, c6_row_two], nextId := 3 }

def c6_state_two : QueueState :=
  { rows := [{ c6_row_one with claimed_ts := some 1000 },
             { c6_row_two with claimed_ts := some 1001 }], nextId := 3 }

/-- Witness for C6: two back-to-back claims on a two-job table, one second
apart with a 300-second TTL, return ids 1 and 2. -/
theorem transcode_C6_claim_protocol_witness :
    (∃ row ∈ c6_state.rows, claim_eligible (1000 - 300) row = true ∧
      ({ c6_row_one with claimed_ts := some 1000 } : JobRow) =
        { row with claimed_ts := some 1000 } ∧
      ∀ r' ∈ c6_state.rows, claim_eligible (1000 - 300) r' = true →
        row.id ≤ r'.id) ∧
    (claim_update_count [{ c6_row_one with claimed_ts := some 999 }] 1 600 = 0 ∧
      claim_update_rows [{ c6_row_one with claimed_ts := some 999 }] 1 600 1000 =
        [{ c6_row_one with claimed_ts := some 999 }]) ∧
    (({ c6_row_one with claimed_ts := some 1000 } : JobRow).id ≠
      ({ c6_row_two with claimed_ts := some 1001 } : JobRow).id) := by
  refine ⟨?_, ?_, ?_⟩
  · exact transcode_C6_claim_protocol.1 c6_state 1000 300
      { c6_row_one with claimed_ts := some 1000 } c6_state_one (by decide)
  · exact transcode_C6_claim_protocol.2.1
      [{ c6_row_one with claimed_ts := some 999 }] 1 600 1000 (by decide)
  · exact transcode_C6_claim_protocol.2.2 c6_state 1000 1001 300
      { c6_row_one with claimed_ts := some 1000 }
      { c6_row_two with claimed_ts := some 1001 }
      c6_state_one c6_state_two (by decide) (by decide) (by decide) (by decide)

/-- Claim C7.  `on_message` (lines 1087-1108) drops every payload whose
`version` field is not exactly the integer 3 — missing, non-integer, lower
or higher, never coerced — before touching the queue or the filesystem (the
handler's only side effects are log lines and the final `userdata.put`,
which is never reached). -/
theorem transcode_C7_version_gate (movie_sub series_sub : String)
    (msg : MsgPayload) (h : msg.version ≠ PyValue.int 3) :
    on_message movie_sub series_sub msg = Option.none := by
  cases hv : msg.version with
  | none => simp [on_message, hv, py_isinstance_int]
  | str s => simp [on_message, hv, py_isinstance_int]
  | list xs => simp [on_message, hv, py_isinstance_int]
  | bool b =>
    cases b <;>
      simp [on_message, hv, py_isinstance_int, py_int_val, MQTT_PAYLOAD_VERSION]
  | int n =>
    have hn : n ≠ 3 := by
      intro h3
      rw [hv, h3] at h
      exact h rfl
    by_cases hlt : n < 3
    · simp [on_message, hv, py_isinstance_int, py_int_val, MQTT_PAYLOAD_VERSION, hlt]
    · simp [on_message, hv, py_isinstance_int, py_int_val, MQTT_PAYLOAD_VERSION,
        hlt, hn]

/-- The envelope used by the C7 witness: `version: 2`, everything else
well-formed. -/
def c7_msg : MsgPayload :=
  { version := PyValue.int 2,
    path := some { parts := ["raw", "dvd", "Serien", "Show"], ex := true },
    files := PyValue.list [PyScalar.str "/raw/dvd/Serien/Show/e1.mkv"],
    mode := PyValue.str "series",
    source_type := PyValue.str "dvd",
    interlaced := PyValue.none }

/-- Witness for C7 at a version-2 envelope. -/
theorem transcode_C7_version_gate_witness :
    c7_msg.version ≠ PyValue.int 3 ∧
    on_message "Filme" "Serien" c7_msg = Option.none :=
  ⟨by decide, transcode_C7_version_gate "Filme" "Serien" c7_msg (by decide)⟩

/-- Claim C8.  Whenever the probed audio stream list is non-empty, the
stream plan keeps at least one audio stream: if the language filter would
drop all of them, lines 732-737 restore the full list. -/
theorem transcode_C8_audio_kept (audio_streams : List StreamInfo)
    (audio_langs : List String) (h : audio_streams ≠ []) :
    selected_audio_with_fallback audio_streams audio_langs ≠ [] := by
  unfold selected_audio_with_fallback
  by_cases hsel : filter_streams_by_language audio_streams audio_langs = []
  · rw [if_pos ⟨h, hsel⟩]
    exact h
  · rw [if_neg (fun hc => hsel hc.2)]
    exact hsel

/-- The audio stream list used by the C8 witness: a single French track,
which the default `eng,ger,deu` allow-set would drop. -/
def c8_streams : List StreamInfo :=
  [{ index := some 1, channels := some 2, language := some "fra" }]

/-- Witness for C8 with the default configured audio languages. -/
theorem transcode_C8_audio_kept_witness :
    c8_streams ≠ [] ∧
    selected_audio_with_fallback c8_streams
      (parse_langs Option.none "eng,ger,deu") ≠ [] :=
  ⟨by decide, transcode_C8_audio_kept c8_streams
    (parse_langs Option.none "eng,ger,deu") (by decide)⟩

/-! ## Helper lemmas about the reconciler -/

lemma filter_ready_mkvs_fst (probe : String → Option Int) (allow_failures : Bool) :
    ∀ mkvs : List String,
      (filter_ready_mkvs probe allow_failures mkvs).1 =
        if allow_failures then mkvs
        else mkvs.filter (fun f => (probe f).isSome)
  | [] => by cases allow_failures <;> simp [filter_ready_mkvs]
  | mkv :: rest => by
    have ih := filter_ready_mkvs_fst probe allow_failures rest
    cases hp : probe mkv with
    | none => cases allow_failures <;> simp [filter_ready_mkvs, hp, ih]
    | some h => cases allow_failures <;> simp [filter_ready_mkvs, hp, ih]

lemma chunk_go_flatten (size : Nat) (hs : 1 ≤ size) :
    ∀ (fuel : Nat) (l : List String), l.length ≤ fuel →
      (chunk_go size fuel l).flatMap id = l := by
  intro fuel
  induction fuel with
  | zero =>
    intro l hl
    rw [List.length_eq_zero.mp (Nat.le_zero.mp hl)]
    simp [chunk_go]
  | succ n ih =>
    intro l hl
    cases l with
    | nil => simp [chunk_go]
    | cons x xs =>
      simp only [chunk_go, List.flatMap_cons, id_eq]
      rw [ih ((x :: xs).drop size) ?_]
      · exact List.take_append_drop size (x :: xs)
      · rw [List.length_drop]
        simp only [List.length_cons] at hl ⊢
        omega

lemma chunk_go_length_le (size : Nat) (hs : 1 ≤ size) :
    ∀ (fuel : Nat) (l : List String), l.length ≤ fuel →
      ∀ c ∈ chunk_go size fuel l, c.length ≤ size := by
  intro fuel
  induction fuel with
  | zero =>
    intro l hl
    rw [List.length_eq_zero.mp (Nat.le_zero.mp hl)]
    simp [chunk_go]
  | succ n ih =>
    intro l hl c hc
    cases l with
    | nil => simp [chunk_go] at hc
    | cons x xs =>
      simp only [chunk_go, List.mem_cons] at hc
      rcases hc with rfl | hc
      · exact List.length_take_le size (x :: xs)
      · refine ih ((x :: xs).drop size) ?_ c hc
        rw [List.length_drop]
        simp only [List.length_cons] at hl ⊢
        omega

lemma publish_dir_flatten (probe : String → Option Int) (allow_failures : Bool)
    (mkvs : List String) :
    (publish_dir probe allow_failures mkvs).flatMap id =
      (filter_ready_mkvs probe allow_failures mkvs).1 := by
  unfold publish_dir
  by_cases hr : (filter_ready_mkvs probe allow_failures mkvs).1 = []
  · simp [hr]
  · rw [if_neg hr]
    unfold chunk_list
    rw [if_neg (by decide)]
    exact chunk_go_flatten ((5 : Int).toNat) (by decide) _ _ le_rfl

/-- Counterexample to claim C9.  One missing source file whose ffprobe probe
fails, with the default behaviour (`--allow-ffprobe-failures` not given):
`filter_ready_mkvs` drops it (lines 148-154), the directory is skipped as
"all files failed ffprobe" (lines 422-427), and nothing is published — so
the union of the published `files` fields is empty while the set of missing
destinations at scan time is not. -/
theorem rescan_C9_counterexample :
    published_envelopes (fun _ => Option.none) false [["/raw/a.mkv"]] = [] ∧
    missing_files [["/raw/a.mkv"]] = ["/raw/a.mkv"] := by
  constructor
  · rfl
  · rfl

/-- Claim C9 as amended: every published envelope carries at most 5 files,
and the union of the `files` fields over all published envelopes equals the
missing source files whose video probe succeeded — all missing files only
when `--allow-ffprobe-failures` is given. -/
theorem rescan_C9_amended (probe : String → Option Int) (allow_failures : Bool)
    (dirs : List (List String)) :
    (∀ env ∈ published_envelopes probe allow_failures dirs, env.length ≤ 5) ∧
    (published_envelopes probe allow_failures dirs).flatMap id =
      (if allow_failures then missing_files dirs
       else (missing_files dirs).filter (fun f => (probe f).isSome)) := by
  constructor
  · intro env henv
    rcases List.mem_flatMap.mp henv with ⟨d, _, henv'⟩
    unfold publish_dir at henv'
    by_cases hr : (filter_ready_mkvs probe allow_failures d).1 = []
    · simp [hr] at henv'
    · rw [if_neg hr] at henv'
      unfold chunk_list at henv'
      rw [if_neg (by decide)] at henv'
      exact chunk_go_length_le ((5 : Int).toNat) (by decide) _ _ le_rfl env henv'
  · induction dirs with
    | nil => cases allow_failures <;> simp [published_envelopes, missing_files]
    | cons d rest ih =>
      simp only [published_envelopes, missing_files, List.flatMap_cons,
        List.flatMap_append] at ih ⊢
      rw [publish_dir_flatten, filter_ready_mkvs_fst]
      cases allow_failures with
      | true =>
        simp only [if_true] at ih ⊢
        rw [ih]
        rfl
      | false =>
        simp only [Bool.false_eq_true, if_false] at ih ⊢
        rw [ih, List.filter_append]
        rfl

def c9_probe : String → Option Int := fun _ => some 576

def c9_dirs : List (List String) := [["a", "b", "c", "d", "e", "f"]]

/-- Witness for C9: six missing files, all probing fine, are published as a
batch of five plus a batch of one, whose union is the six files. -/
theorem rescan_C9_amended_witness :
    (["f"] ∈ published_envelopes c9_probe false c9_dirs) ∧
    ([("f" : String)].length ≤ 5) ∧
    ((published_envelopes c9_probe false c9_dirs).flatMap id =
      (if false then missing_files c9_dirs
       else (missing_files c9_dirs).filter (fun f => (c9_probe f).isSome))) :=
  ⟨by decide, (rescan_C9_amended c9_probe false c9_dirs).1 ["f"] (by decide),
   (rescan_C9_amended c9_probe false c9_dirs).2⟩

/-- Counterexample to claim C10.  A configured language value consisting
only of whitespace does not parse to the empty set: `parse_langs` falls
back to the default (`value = raw if raw and raw.strip() else default`,
line 328), so filtering is not disabled — a stream whose language is
outside the default set is dropped. -/
theorem transcode_C10_counterexample :
    parse_langs (some " ") "eng,ger,deu" = ["eng", "ger", "deu"] ∧
    filter_streams_by_language
        [{ index := some 1, channels := some 2, language := some "fra" }]
        (parse_langs (some " ") "eng,ger,deu") = [] := by
  constructor
  · rfl
  · rfl

/-- Claim C10 as amended: `filter_streams_by_language` with an empty
allow-set is the identity, and a configured value that parses to the empty
set — one consisting only of commas, possibly surrounded by whitespace but
containing at least one non-whitespace character — disables filtering;
an empty or whitespace-only value instead falls back to the default
allow-set. -/
theorem transcode_C10_amended :
    (∀ streams : List StreamInfo,
      filter_streams_by_language streams [] = streams) ∧
    (∀ d : String, parse_langs (some ",,") d = []) ∧
    (∀ d : String, parse_langs (some " , ") d = []) ∧
    (∀ d : String, parse_langs (some "   ") d = parse_langs Option.none d) := by
  refine ⟨?_, ?_, ?_, ?_⟩
  · intro streams
    simp [filter_streams_by_language]
  · intro d
    rfl
  · intro d
    rfl
  · intro d
    rfl

end RippingToolchain
